import Mathlib

/-!
Shallow embedding of the RSpace-NTNU-workshop ingestion pipeline
(`src/scripts/document_from_experiment.py` and the source-conversion part of
`src/scripts/create_document.py`).

Modelling conventions:
* Filesystem state is a snapshot: an inductive tree `FsEntry` of regular files,
  directories and unrecognized entries; a regular file is a `FileRef` carrying
  its path, suffix (Python `Path.suffix`), byte size, and the result of
  `read_text()` (which may fail for unreadable files).
* The remote capability `client.upload_file` is a parameter
  `cap : FileRef -> Except String String` returning the attachment id or a
  transport-error message; the external converters `markdown.markdown` and
  `json2html.convert` are parameters as well, with the extension configuration
  (the part fixed by the source) made explicit.
* Python float arithmetic in the admission check (`st_size * 1e-6 <= limit`)
  is modelled with exact rationals.
* Exceptions are `Except`; `try/except` blocks become `match` on the result.
* The `<li>` manifest lines interpolate a float rendering of the size and the
  limit; the entries are modelled structurally (`Entry`), recording exactly
  the data interpolated into each line. Content-section blocks interpolate
  only strings and are modelled as the literal block strings.
-/

instance : DecidableEq (Except String String) := fun a b =>
  match a, b with
  | Except.ok x, Except.ok y => decidable_of_iff (x = y) (by simp)
  | Except.error x, Except.error y => decidable_of_iff (x = y) (by simp)
  | Except.ok _, Except.error _ => isFalse (by simp)
  | Except.error _, Except.ok _ => isFalse (by simp)

/-- A regular file as seen by the pipeline: its path, its `Path.suffix`, its
`stat().st_size` in bytes, and the outcome of reading it as text. The two
flags model `Path.exists()` and `Path.is_file()` re-checks done by
`file2html`; files enumerated by the walk have both true. -/
structure FileRef where
  path : String
  suffix : String
  size : ℕ
  readText : Except String String
  existsOnDisk : Bool
  isRegularFile : Bool
deriving DecidableEq

/-- A directory-tree snapshot: regular files, subdirectories (children in
directory-entry order), or an entry that is neither (the `else: raise`
branch of `list_files`). -/
inductive FsEntry where
  | file (ref : FileRef)
  | dir (children : List FsEntry)
  | special (path : String)

/-- True iff the entry is neither a regular file nor a directory. -/
def FsEntry.isSpecialEntry : FsEntry → Bool
  | .special _ => true
  | _ => false

/-- The `FileRef` of a direct regular-file child, if the entry is one. -/
def FsEntry.asFile : FsEntry → Option FileRef
  | .file f => some f
  | _ => none

mutual

/-- `list_files(directory, process_subdir)` from
`document_from_experiment.py`: errors unless the argument is a directory,
then scans the children in order; a subdirectory is recursed into when
`process_subdir` is true and skipped otherwise; a regular file is appended;
any other entry raises `ValueError`, aborting the whole walk. -/
def list_files (entry : FsEntry) (process_subdir : Bool) : Except String (List FileRef) :=
  match entry with
  | FsEntry.dir children => walkChildren children process_subdir
  | FsEntry.file f => Except.error ("Cannot process directory " ++ f.path)
  | FsEntry.special p => Except.error ("Cannot process directory " ++ p)

/-- The child-scanning loop of `list_files`, in directory-entry order. -/
def walkChildren (children : List FsEntry) (process_subdir : Bool) : Except String (List FileRef) :=
  match children with
  | [] => Except.ok []
  | FsEntry.file f :: rest =>
    match walkChildren rest process_subdir with
    | Except.error e => Except.error e
    | Except.ok others => Except.ok (f :: others)
  | FsEntry.dir sub :: rest =>
    if process_subdir then
      match list_files (FsEntry.dir sub) process_subdir with
      | Except.error e => Except.error e
      | Except.ok subfiles =>
        match walkChildren rest process_subdir with
        | Except.error e => Except.error e
        | Except.ok others => Except.ok (subfiles ++ others)
    else walkChildren rest process_subdir
  | FsEntry.special p :: _ => Except.error ("Could not recognize directory content " ++ p)

end

/-- The admission test of `upload_file_from_path`:
`path.stat().st_size * 1e-6 <= filesize_limit`, with the float arithmetic
modelled over ℚ (the byte size is scaled by the decimal factor 10⁻⁶). -/
def sizeAdmitted (sizeBytes : ℕ) (filesize_limit : ℚ) : Bool :=
  decide ((sizeBytes : ℚ) * 1e-6 ≤ filesize_limit)

/-- Why an upload did not succeed: the oversize `ValueError` raised by
`upload_file_from_path` (carrying the data interpolated into its message),
or an exception from the remote capability (carrying its message). -/
inductive UploadError where
  | oversize (path : String) (sizeBytes : ℕ) (limit : ℚ)
  | transport (detail : String)
deriving DecidableEq

/-- `upload_file_from_path(client, path, filesize_limit)`: if the size is
admitted, call the remote capability (whose failure is a transport error);
otherwise raise the oversize `ValueError` without any remote call. -/
def upload_file_from_path (cap : FileRef → Except String String) (f : FileRef)
    (filesize_limit : ℚ) : Except UploadError String :=
  if sizeAdmitted f.size filesize_limit then
    (cap f).mapError UploadError.transport
  else
    Except.error (UploadError.oversize f.path f.size filesize_limit)

/-- The skip test at the top of the upload loop: `file.suffix in ignore_files`.
With `--ignore` absent, `ignore_files = []` and Python list membership is
always false; with `--ignore` given, `ignore_files` is the ignore string
itself and Python `in` is substring containment. -/
def occursAtStart (needle haystack : List Char) : Bool :=
  match needle, haystack with
  | [], _ => true
  | _ :: _, [] => false
  | a :: as, b :: bs => a = b && occursAtStart as bs

/-- Contiguous-substring test on character lists (Python `needle in haystack`
for strings). -/
def occursWithin (needle : List Char) : List Char → Bool
  | [] => occursAtStart needle []
  | c :: rest => occursAtStart needle (c :: rest) || occursWithin needle rest

/-- Python string containment `needle in haystack`. -/
def isSubstrOf (needle haystack : String) : Bool :=
  occursWithin needle.data haystack.data

/-- The skip decision: `none` models `ignore_files = []` (no `--ignore`
value), `some s` models `ignore_files = s` (the raw `--ignore` string). -/
def suffixIgnored (ignore : Option String) (suffix : String) : Bool :=
  match ignore with
  | none => false
  | some s => isSubstrOf suffix s

/-- The branch of the upload loop taken for one file, as instrumented control
flow: skipped by the ignore test, rejected (with the triggering error), or
succeeded with the remote attachment id. -/
inductive Outcome where
  | skipped (f : FileRef)
  | rejected (f : FileRef) (reason : UploadError)
  | succeeded (f : FileRef) (id : String)
deriving DecidableEq

/-- One iteration of the upload loop of `__main__`: the ignore test, then
`upload_file_from_path` inside `try`, with `except Exception` mapping any
error to the rejected branch and `else` to the succeeded branch. -/
def processFile (cap : FileRef → Except String String) (filesize_limit : ℚ)
    (ignore : Option String) (f : FileRef) : Outcome :=
  if suffixIgnored ignore f.suffix then
    Outcome.skipped f
  else
    match upload_file_from_path cap f filesize_limit with
    | Except.error e => Outcome.rejected f e
    | Except.ok id => Outcome.succeeded f id

/-- The outcomes of the upload loop over a walked file list, in walk order. -/
def uploadOutcomes (cap : FileRef → Except String String) (filesize_limit : ℚ)
    (ignore : Option String) (files : List FileRef) : List Outcome :=
  files.map (processFile cap filesize_limit ignore)

/-- A `<li>` line of the "List of files" section, recorded structurally as
the data interpolated into it: the `except` branch interpolates the file
path, its byte size (rendered in MB) and the configured limit — and nothing
from the caught exception; the `else` branch interpolates the path and
`uploaded_file["id"]`. -/
inductive Entry where
  | rejectedItem (path : String) (sizeBytes : ℕ) (limit : ℚ)
  | succeededItem (path : String) (id : String)
deriving DecidableEq

/-- The manifest line appended for one loop iteration: none for the skipped
branch (its body is `pass`), the oversize-formatted line for the `except`
branch whatever the caught exception was, the file-id line for `else`. -/
def manifestEntryOf (filesize_limit : ℚ) : Outcome → Option Entry
  | Outcome.skipped _ => none
  | Outcome.rejected f _ => some (Entry.rejectedItem f.path f.size filesize_limit)
  | Outcome.succeeded f id => some (Entry.succeededItem f.path id)

/-- The "List of files" section assembled by the upload loop: the `<li>`
lines actually appended to `document`, in walk order. -/
def uploadManifest (cap : FileRef → Except String String) (filesize_limit : ℚ)
    (ignore : Option String) (files : List FileRef) : List Entry :=
  files.filterMap (fun f => manifestEntryOf filesize_limit (processFile cap filesize_limit ignore f))

/-- The extensions argument of the `markdown.markdown` call in `file2html`
(`document_from_experiment.py` line 84): the call passes none, so the
conversion runs with an empty extension list. -/
def file2htmlMarkdownExtensions : List String := []

/-- The extensions argument of the `markdown.markdown` call in the source
conversion of `create_document.py` (`__main__`, lines 153-162). -/
def createDocumentMarkdownExtensions : List String :=
  ["tables", "sane_lists", "fenced_code", "pymdownx.arithmatex"]

/-- Modelled from the spec: the python-markdown extensions implementing the
features the spec requires of the markdown conversion — tables, sane list
semantics, fenced code blocks, inline math markup. -/
def specMarkdownFeatureExtensions : List String :=
  ["tables", "sane_lists", "fenced_code", "pymdownx.arithmatex"]

/-- `file2html(filename)`: existence and regular-file checks, `read_text()`
(whose failure propagates to the caller), then suffix dispatch — `.md` runs
`markdown.markdown` with `file2htmlMarkdownExtensions`, `.json` runs
`json2html.convert` (which fails on malformed JSON), anything else is the
raw text unchanged. `md` and `jsonConv` are the external converters. -/
def file2html (md : List String → String → String)
    (jsonConv : String → Except String String) (f : FileRef) : Except String String :=
  if f.existsOnDisk then
    if f.isRegularFile then
      match f.readText with
      | Except.error e => Except.error e
      | Except.ok text =>
        if f.suffix = ".md" then Except.ok (md file2htmlMarkdownExtensions text)
        else if f.suffix = ".json" then jsonConv text
        else Except.ok text
    else Except.error ("File " ++ f.path ++ " is not a file")
  else Except.error ("File " ++ f.path ++ " does not exist")

/-- The string appended for one file by the content loop when `file2html`
returns: `<hr>```{file}```\n{file2html(file)}\n<hr>`. -/
def contentBlock (path html : String) : String :=
  "<hr>```" ++ path ++ "```\n" ++ html ++ "\n<hr>"

/-- The content loop of `__main__`: for each walked file, append its block;
when `file2html` raises, the `except` branch only logs, so nothing is
appended for that file and the loop continues. -/
def contentSection (md : List String → String → String)
    (jsonConv : String → Except String String) (files : List FileRef) : List String :=
  files.filterMap (fun f =>
    match file2html md jsonConv f with
    | Except.ok html => some (contentBlock f.path html)
    | Except.error _ => none)

/-- The manifest entry of a non-skipped file, as a total function: the line
its iteration appends given the capability's answer and the admission test. -/
def fileEntry (cap : FileRef → Except String String) (filesize_limit : ℚ)
    (f : FileRef) : Entry :=
  match upload_file_from_path cap f filesize_limit with
  | Except.error _ => Entry.rejectedItem f.path f.size filesize_limit
  | Except.ok id => Entry.succeededItem f.path id

/-- Sample capability that always succeeds with a fixed attachment id. -/
def sampleCapOk : FileRef → Except String String := fun _ => Except.ok "GL1234"

/-- Sample capability that always raises a transport error "boom". -/
def sampleCapBoom : FileRef → Except String String := fun _ => Except.error "boom"

/-- Sample capability failing only on the path "/exp/b.json". -/
def sampleCapFailB : FileRef → Except String String := fun f =>
  if f.path = "/exp/b.json" then Except.error "boom" else Except.ok "GL1234"

/-- Sample markdown converter (identity on the text). -/
def sampleMd : List String → String → String := fun _ t => t

/-- Sample JSON converter (always succeeds with the text). -/
def sampleJson : String → Except String String := fun t => Except.ok t

/-- Sample file `/exp/a.md`, 20 bytes, readable. -/
def fileA : FileRef :=
  { path := "/exp/a.md", suffix := ".md", size := 20,
    readText := Except.ok "# hi", existsOnDisk := true, isRegularFile := true }

/-- Sample file `/exp/b.json`, 30 bytes, readable. -/
def fileB : FileRef :=
  { path := "/exp/b.json", suffix := ".json", size := 30,
    readText := Except.ok "[1]", existsOnDisk := true, isRegularFile := true }

/-- Sample file `/exp/c.bin`, 5000000 bytes, unreadable as text. -/
def fileC : FileRef :=
  { path := "/exp/c.bin", suffix := ".bin", size := 5000000,
    readText := Except.error "UnicodeDecodeError", existsOnDisk := true, isRegularFile := true }

/-- Sample extensionless file `/exp/README`, 10 bytes, readable. -/
def fileNoExt : FileRef :=
  { path := "/exp/README", suffix := "", size := 10,
    readText := Except.ok "read me", existsOnDisk := true, isRegularFile := true }

theorem sizeAdmitted_eq_true_iff (s : ℕ) (l : ℚ) : sizeAdmitted s l = true ↔ (s : ℚ) * 1e-6 ≤ l := by
  simp [sizeAdmitted]

theorem sizeAdmitted_eq_false_iff (s : ℕ) (l : ℚ) : sizeAdmitted s l = false ↔ ¬ ((s : ℚ) * 1e-6 ≤ l) := by
  simp [sizeAdmitted]

theorem sizeAdmitted_20_2 : sizeAdmitted 20 2 = true :=
  (sizeAdmitted_eq_true_iff 20 2).mpr (by norm_num)

theorem sizeAdmitted_30_2 : sizeAdmitted 30 2 = true :=
  (sizeAdmitted_eq_true_iff 30 2).mpr (by norm_num)

theorem sizeAdmitted_10_2 : sizeAdmitted 10 2 = true :=
  (sizeAdmitted_eq_true_iff 10 2).mpr (by norm_num)

theorem sizeAdmitted_5000000_2 : sizeAdmitted 5000000 2 = false :=
  (sizeAdmitted_eq_false_iff 5000000 2).mpr (by norm_num)

theorem occursWithin_nil (l : List Char) : occursWithin [] l = true := by
  cases l <;> simp [occursWithin, occursAtStart]

theorem manifestEntryOf_ignored (cap : FileRef → Except String String) (limit : ℚ)
    (ignore : Option String) (f : FileRef) (h : suffixIgnored ignore f.suffix = true) :
    manifestEntryOf limit (processFile cap limit ignore f) = none := by
  simp [processFile, h, manifestEntryOf]

theorem manifestEntryOf_not_ignored (cap : FileRef → Except String String) (limit : ℚ)
    (ignore : Option String) (f : FileRef) (h : suffixIgnored ignore f.suffix = false) :
    manifestEntryOf limit (processFile cap limit ignore f) = some (fileEntry cap limit f) := by
  simp only [processFile, h, Bool.false_eq_true, if_false, fileEntry]
  cases hu : upload_file_from_path cap f limit <;> simp [manifestEntryOf]

/-- C3: a file whose suffix passes the ignore test is skipped, with an
outcome independent of the remote capability and of the size limit: neither
the admission check nor the upload capability takes part in the result. -/
theorem ignored_file_skipped (ignore : Option String) (f : FileRef)
    (h : suffixIgnored ignore f.suffix = true) :
    ∀ (cap : FileRef → Except String String) (limit : ℚ),
      processFile cap limit ignore f = Outcome.skipped f := by
  intro cap limit
  simp [processFile, h]

/-- C3 witness: with `--ignore ".md"`, the file `/exp/a.md` is skipped. -/
theorem ignored_file_skipped_witness :
    processFile sampleCapOk 2 (some ".md") fileA = Outcome.skipped fileA :=
  ignored_file_skipped (some ".md") fileA (by decide) sampleCapOk 2

/-- C9: with an `--ignore` value the skip test is Python substring
containment of the suffix in the ignore string: the test equals the
substring check; every extensionless file is skipped whatever the ignore
string is; and with ignore string ".mdx" a ".md" file is skipped. -/
theorem ignore_substring_semantics :
    (∀ (s sfx : String), suffixIgnored (some s) sfx = isSubstrOf sfx s)
    ∧ (∀ (s : String) (cap : FileRef → Except String String) (limit : ℚ) (f : FileRef),
        f.suffix = "" → processFile cap limit (some s) f = Outcome.skipped f)
    ∧ (∀ (cap : FileRef → Except String String) (limit : ℚ) (f : FileRef),
        f.suffix = ".md" → processFile cap limit (some ".mdx") f = Outcome.skipped f) := by
  refine ⟨fun s sfx => rfl, ?_, ?_⟩
  · intro s cap limit f hf
    have h : suffixIgnored (some s) f.suffix = true := by
      rw [hf]
      show isSubstrOf "" s = true
      show occursWithin "".data s.data = true
      exact occursWithin_nil s.data
    simp [processFile, h]
  · intro cap limit f hf
    have h : suffixIgnored (some ".mdx") f.suffix = true := by
      rw [hf]; decide
    simp [processFile, h]

/-- C10: the admission check scales the byte size by the decimal factor
10⁻⁶ and compares with ≤: under the default limit 2.0, a 2000000-byte file
is admitted, a 2000001-byte file is rejected, and (against a MiB reading)
a 2-MiB file of 2097152 bytes is rejected as well. -/
theorem admission_decimal_megabytes :
    sizeAdmitted 2000000 2 = true ∧ sizeAdmitted 2000001 2 = false ∧ sizeAdmitted 2097152 2 = false
    ∧ (∀ (s : ℕ) (l : ℚ), sizeAdmitted s l = true ↔ (s : ℚ) * 1e-6 ≤ l)
    ∧ (∀ s : ℕ, (s : ℚ) * 1e-6 = (s : ℚ) / 1000000) := by
  refine ⟨(sizeAdmitted_eq_true_iff 2000000 2).mpr (by norm_num),
    (sizeAdmitted_eq_false_iff 2000001 2).mpr (by norm_num),
    (sizeAdmitted_eq_false_iff 2097152 2).mpr (by norm_num),
    sizeAdmitted_eq_true_iff, fun s => by norm_num [mul_one_div]⟩

/-- C8: on a directory whose children are all regular files or directories,
the non-recursive walk succeeds and returns exactly the regular files
directly among the children, in directory-entry order — subdirectories are
not traversed and no directory entry is returned. -/
theorem walk_nonrecursive_direct_files (children : List FsEntry)
    (h : ∀ c ∈ children, c.isSpecialEntry = false) :
    list_files (FsEntry.dir children) false = Except.ok (children.filterMap FsEntry.asFile) := by
  show walkChildren children false = Except.ok (children.filterMap FsEntry.asFile)
  induction children with
  | nil => rfl
  | cons c rest ih =>
    have hrest := ih (fun x hx => h x (List.mem_cons_of_mem c hx))
    match c with
    | FsEntry.file f =>
      rw [List.filterMap_cons]
      show (match walkChildren rest false with
        | Except.error e => Except.error e
        | Except.ok others => Except.ok (f :: others)) = _
      rw [hrest]
      rfl
    | FsEntry.dir sub =>
      rw [List.filterMap_cons]
      show walkChildren rest false = _
      rw [hrest]
      rfl
    | FsEntry.special p =>
      exact absurd (h (FsEntry.special p) (List.mem_cons_self _ _)) (by simp [FsEntry.isSpecialEntry])

/-- C8 witness: a directory with two direct files and one subdirectory
(holding a third file) walks, non-recursively, to exactly the two direct
files in entry order. -/
theorem walk_nonrecursive_direct_files_witness :
    list_files (FsEntry.dir [FsEntry.file fileA, FsEntry.dir [FsEntry.file fileB], FsEntry.file fileC]) false
      = Except.ok ([FsEntry.file fileA, FsEntry.dir [FsEntry.file fileB], FsEntry.file fileC].filterMap FsEntry.asFile) :=
  walk_nonrecursive_direct_files _ (by decide)

/-- C1: an exception from the remote capability while uploading one file is
caught at that file's scope and becomes a REJECTED outcome with the
transport reason; the outcomes of all surrounding files are produced
unchanged, and a three-file run whose second file fails in transport still
assembles all three manifest entries. -/
theorem upload_transport_error_isolated
    (cap : FileRef → Except String String) (limit : ℚ) (ignore : Option String)
    (pre post : List FileRef) (f : FileRef) (d : String)
    (hig : suffixIgnored ignore f.suffix = false)
    (hadm : sizeAdmitted f.size limit = true)
    (hcap : cap f = Except.error d) :
    uploadOutcomes cap limit ignore (pre ++ f :: post) =
      uploadOutcomes cap limit ignore pre
        ++ Outcome.rejected f (UploadError.transport d) :: uploadOutcomes cap limit ignore post
    ∧ (∀ f1 f3 : FileRef, suffixIgnored ignore f1.suffix = false →
        suffixIgnored ignore f3.suffix = false →
        (uploadManifest cap limit ignore [f1, f, f3]).length = 3) := by
  have hf : processFile cap limit ignore f = Outcome.rejected f (UploadError.transport d) := by
    simp [processFile, hig, upload_file_from_path, hadm, hcap, Except.mapError]
  constructor
  · simp [uploadOutcomes, hf]
  · intro f1 f3 h1 h3
    simp [uploadManifest, manifestEntryOf_not_ignored cap limit ignore f1 h1,
      manifestEntryOf_not_ignored cap limit ignore f3 h3,
      manifestEntryOf_not_ignored cap limit ignore f hig]

/-- C1 witness: a run over `/exp/a.md`, `/exp/b.json`, `/exp/c.bin` with a
capability failing in transport exactly on the second file: the second
outcome is the transport rejection, the others are untouched, and every
such three-file manifest has three entries. -/
theorem upload_transport_error_isolated_witness :
    (uploadOutcomes sampleCapFailB 2 none ([fileA] ++ fileB :: [fileC]) =
      uploadOutcomes sampleCapFailB 2 none [fileA]
        ++ Outcome.rejected fileB (UploadError.transport "boom")
          :: uploadOutcomes sampleCapFailB 2 none [fileC])
    ∧ (∀ f1 f3 : FileRef, suffixIgnored none f1.suffix = false →
        suffixIgnored none f3.suffix = false →
        (uploadManifest sampleCapFailB 2 none [f1, fileB, f3]).length = 3) :=
  upload_transport_error_isolated sampleCapFailB 2 none [fileA] [fileC] fileB "boom"
    rfl sizeAdmitted_30_2 (by decide)

/-- C2 (amended): the assembled list has exactly one entry per non-skipped
input file, in walk order; a file whose suffix passes the ignore test
contributes no entry at all. -/
theorem manifest_one_entry_per_unskipped
    (cap : FileRef → Except String String) (limit : ℚ) (ignore : Option String)
    (files : List FileRef) :
    uploadManifest cap limit ignore files =
      (files.filter (fun f => !suffixIgnored ignore f.suffix)).map (fileEntry cap limit)
    ∧ (uploadManifest cap limit ignore files).length =
      (files.filter (fun f => !suffixIgnored ignore f.suffix)).length := by
  have key : uploadManifest cap limit ignore files =
      (files.filter (fun f => !suffixIgnored ignore f.suffix)).map (fileEntry cap limit) := by
    induction files with
    | nil => rfl
    | cons f rest ih =>
      simp only [uploadManifest] at ih
      cases hb : suffixIgnored ignore f.suffix with
      | false =>
        simp [uploadManifest, List.filterMap_cons, List.filter_cons, hb,
          manifestEntryOf_not_ignored cap limit ignore f hb, ih]
      | true =>
        simp [uploadManifest, List.filterMap_cons, List.filter_cons, hb,
          manifestEntryOf_ignored cap limit ignore f hb, ih]
  exact ⟨key, by rw [key, List.length_map]⟩

/-- C2 counterexample: with `--ignore ".md"` the single input `/exp/a.md`
has its suffix in the skip set, yet the assembled list has zero entries for
the one input file — not one entry per input FileRef. -/
theorem manifest_drops_skipped_counterexample :
    suffixIgnored (some ".md") fileA.suffix = true
    ∧ uploadManifest sampleCapOk 2 (some ".md") [fileA] = []
    ∧ [fileA].length = 1 :=
  ⟨by decide, by decide, rfl⟩

/-- C4: a file whose scaled size exceeds the limit is rejected as oversize:
the loop records the REJECTED outcome with the oversize reason and
`upload_file_from_path` returns the fixed oversize error for every
capability (the remote capability is never consulted); admission holds
exactly when the scaled size is at most the limit, and admitted files are
passed to the capability. -/
theorem oversize_rejected_without_upload (f : FileRef) (limit : ℚ) (ignore : Option String)
    (h : ¬ ((f.size : ℚ) * 1e-6 ≤ limit)) :
    (∀ cap, suffixIgnored ignore f.suffix = false →
      processFile cap limit ignore f
        = Outcome.rejected f (UploadError.oversize f.path f.size limit))
    ∧ (∀ cap, upload_file_from_path cap f limit
        = Except.error (UploadError.oversize f.path f.size limit))
    ∧ (∀ (s : ℕ) (l : ℚ), sizeAdmitted s l = true ↔ (s : ℚ) * 1e-6 ≤ l)
    ∧ (∀ (cap : FileRef → Except String String) (g : FileRef) (l : ℚ),
        sizeAdmitted g.size l = true →
        upload_file_from_path cap g l = (cap g).mapError UploadError.transport) := by
  have hadm : sizeAdmitted f.size limit = false := (sizeAdmitted_eq_false_iff f.size limit).mpr h
  refine ⟨?_, ?_, sizeAdmitted_eq_true_iff, ?_⟩
  · intro cap hig
    simp [processFile, hig, upload_file_from_path, hadm]
  · intro cap
    simp [upload_file_from_path, hadm]
  · intro cap g l hg
    simp [upload_file_from_path, hg]

/-- C4 witness: `/exp/c.bin` of 5000000 bytes against the default limit of
2.0 MB: rejected oversize with no remote call, for every capability. -/
theorem oversize_rejected_without_upload_witness :
    (∀ cap, suffixIgnored none fileC.suffix = false →
      processFile cap 2 none fileC
        = Outcome.rejected fileC (UploadError.oversize fileC.path fileC.size 2))
    ∧ (∀ cap, upload_file_from_path cap fileC 2
        = Except.error (UploadError.oversize fileC.path fileC.size 2))
    ∧ (∀ (s : ℕ) (l : ℚ), sizeAdmitted s l = true ↔ (s : ℚ) * 1e-6 ≤ l)
    ∧ (∀ (cap : FileRef → Except String String) (g : FileRef) (l : ℚ),
        sizeAdmitted g.size l = true →
        upload_file_from_path cap g l = (cap g).mapError UploadError.transport) :=
  oversize_rejected_without_upload fileC 2 none (by norm_num [fileC])

/-- C5 (amended): when transcoding fails for a file, the content loop emits
no block at all for that file — no placeholder — and the blocks of the
surrounding files are assembled unchanged, so assembly continues. -/
theorem content_failure_omits_block (md : List String → String → String)
    (jsonConv : String → Except String String) (pre post : List FileRef) (f : FileRef)
    (h : ∃ e, file2html md jsonConv f = Except.error e) :
    contentSection md jsonConv (pre ++ f :: post) =
      contentSection md jsonConv pre ++ contentSection md jsonConv post := by
  obtain ⟨e, he⟩ := h
  simp [contentSection, List.filterMap_append, List.filterMap_cons, he]

/-- C5 witness: with `/exp/c.bin` unreadable, the run over the three sample
files assembles exactly the blocks of the other two files. -/
theorem content_failure_omits_block_witness :
    contentSection sampleMd sampleJson ([fileA] ++ fileC :: [fileB]) =
      contentSection sampleMd sampleJson [fileA] ++ contentSection sampleMd sampleJson [fileB] :=
  content_failure_omits_block sampleMd sampleJson [fileA] [fileB] fileC
    ⟨"UnicodeDecodeError", by decide⟩

/-- C5 counterexample: transcoding of `/exp/c.bin` fails (unreadable as
text), yet the content section of a run over just that file is the empty
list — it contains no placeholder block for the file. -/
theorem content_failure_no_placeholder_counterexample :
    file2html sampleMd sampleJson fileC = Except.error "UnicodeDecodeError"
    ∧ contentSection sampleMd sampleJson [fileC] = [] :=
  ⟨by decide, by decide⟩

/-- C6 (amended): the manifest line of a non-skipped file is built from the
file and the configured limit alone: a rejected file's line states the
path, the measured byte size and the configured limit whatever the
rejection reason was — the transport detail never reaches the line — and a
succeeded file's line states the path and the remote attachment id. -/
theorem manifest_line_contents
    (cap : FileRef → Except String String) (limit : ℚ) (ignore : Option String)
    (f : FileRef) (hig : suffixIgnored ignore f.suffix = false) :
    (∀ d, cap f = Except.error d → sizeAdmitted f.size limit = true →
      manifestEntryOf limit (processFile cap limit ignore f)
        = some (Entry.rejectedItem f.path f.size limit))
    ∧ (sizeAdmitted f.size limit = false →
      manifestEntryOf limit (processFile cap limit ignore f)
        = some (Entry.rejectedItem f.path f.size limit))
    ∧ (∀ a, cap f = Except.ok a → sizeAdmitted f.size limit = true →
      manifestEntryOf limit (processFile cap limit ignore f)
        = some (Entry.succeededItem f.path a)) := by
  refine ⟨?_, ?_, ?_⟩
  · intro d hd hadm
    simp [processFile, hig, upload_file_from_path, hadm, hd, Except.mapError, manifestEntryOf]
  · intro hadm
    simp [processFile, hig, upload_file_from_path, hadm, manifestEntryOf]
  · intro a ha hadm
    simp [processFile, hig, upload_file_from_path, hadm, ha, Except.mapError, manifestEntryOf]

/-- C6 witness: the manifest line facts at `/exp/b.json` under the default
limit with the capability that fails in transport on that file. -/
theorem manifest_line_contents_witness :
    (∀ d, sampleCapFailB fileB = Except.error d → sizeAdmitted fileB.size 2 = true →
      manifestEntryOf 2 (processFile sampleCapFailB 2 none fileB)
        = some (Entry.rejectedItem fileB.path fileB.size 2))
    ∧ (sizeAdmitted fileB.size 2 = false →
      manifestEntryOf 2 (processFile sampleCapFailB 2 none fileB)
        = some (Entry.rejectedItem fileB.path fileB.size 2))
    ∧ (∀ a, sampleCapFailB fileB = Except.ok a → sizeAdmitted fileB.size 2 = true →
      manifestEntryOf 2 (processFile sampleCapFailB 2 none fileB)
        = some (Entry.succeededItem fileB.path a)) :=
  manifest_line_contents sampleCapFailB 2 none fileB rfl

/-- C6 counterexample: on a transport failure the manifest line does not
state the transport detail: capabilities failing with the different
details "boom" and "crash" yield the same line for `/exp/b.json` — the
oversize-style line stating the measured size and the configured limit —
and no string of that line contains "boom". -/
theorem transport_detail_not_in_manifest_counterexample :
    manifestEntryOf 2 (processFile sampleCapBoom 2 none fileB)
      = some (Entry.rejectedItem "/exp/b.json" 30 2)
    ∧ manifestEntryOf 2 (processFile (fun _ => Except.error "crash") 2 none fileB)
      = some (Entry.rejectedItem "/exp/b.json" 30 2)
    ∧ isSubstrOf "boom" "/exp/b.json" = false := by
  refine ⟨?_, ?_, by decide⟩
  · simp [processFile, upload_file_from_path, fileB, sizeAdmitted_30_2, sampleCapBoom,
      suffixIgnored, Except.mapError, manifestEntryOf]
  · simp [processFile, upload_file_from_path, fileB, sizeAdmitted_30_2,
      suffixIgnored, Except.mapError, manifestEntryOf]

/-- C7 counterexample: the markdown conversion of `file2html` passes no
extensions: its extension list is empty, so neither "tables" nor the rest
of the required feature extensions is enabled there. -/
theorem file2html_markdown_plain_counterexample :
    file2htmlMarkdownExtensions = ([] : List String)
    ∧ ¬ ("tables" ∈ file2htmlMarkdownExtensions)
    ∧ ¬ (specMarkdownFeatureExtensions ⊆ file2htmlMarkdownExtensions) := by
  refine ⟨rfl, by decide, fun hsub => ?_⟩
  exact absurd (hsub (show "tables" ∈ specMarkdownFeatureExtensions by decide)) (by decide)

/-- C7 (amended): `file2html` converts a markdown file with the plain
`markdown.markdown` call carrying the empty extension list; the conversion
enabling tables, sane lists, fenced code and inline math is the one in the
source handling of `create_document.py`, whose extension list contains
every required feature extension. -/
theorem markdown_conversion_configuration (md : List String → String → String)
    (jsonConv : String → Except String String) (f : FileRef) (text : String)
    (h1 : f.suffix = ".md") (h2 : f.readText = Except.ok text)
    (h3 : f.existsOnDisk = true) (h4 : f.isRegularFile = true) :
    file2html md jsonConv f = Except.ok (md file2htmlMarkdownExtensions text)
    ∧ file2htmlMarkdownExtensions = []
    ∧ specMarkdownFeatureExtensions ⊆ createDocumentMarkdownExtensions := by
  refine ⟨?_, rfl, by decide⟩
  simp [file2html, h1, h2, h3, h4]

/-- C7 witness: converting the sample markdown file `/exp/a.md`. -/
theorem markdown_conversion_configuration_witness :
    file2html sampleMd sampleJson fileA = Except.ok (sampleMd file2htmlMarkdownExtensions "# hi")
    ∧ file2htmlMarkdownExtensions = []
    ∧ specMarkdownFeatureExtensions ⊆ createDocumentMarkdownExtensions :=
  markdown_conversion_configuration sampleMd sampleJson fileA "# hi" rfl rfl rfl rfl
